import Mathlib

/-!
Shallow embedding of `src/wallet/api/transaction_history.cpp` (namespace `Wallet`,
class `TransactionHistoryImpl`) and proofs about it.

Modelling conventions:
* `uint64_t` values are `Nat`s assumed `< 2 ^ 64`; each C++ subtraction that can
  wrap is rendered explicitly with `sub64`.
* `crypto::hash` values appear in the source only through `tools::type_to_hex`
  (a renderer living outside this file's source), so hashes and raw payment ids
  are modelled as the already-rendered strings the Ledger hands over
  (`String` for transaction hashes, `List Char` for payment ids).
* The wallet2 collaborator ("the Ledger") is a record of query results and
  service functions; `refresh` consumes it.
-/

set_option linter.unusedVariables false

namespace TransactionHistory

/-- Unsigned 64-bit subtraction exactly as C++ computes `a - b` on `uint64_t`:
wraps modulo `2 ^ 64` (operands are `uint64_t` values, i.e. `< 2 ^ 64`). -/
def sub64 (a b : Nat) : Nat := (a + (2 ^ 64 - b % 2 ^ 64)) % 2 ^ 64

/-- The `(uint64_t)-1` sentinel used for an unknown change amount. -/
def U64_SENTINEL : Nat := 2 ^ 64 - 1

/-- TransactionInfo::Direction. -/
inductive Direction
  | directionIn
  | directionOut
deriving DecidableEq

/-- Wallet::reward_type. -/
inductive RewardType
  | unspecified
  | miner
  | service_node
deriving DecidableEq

/-- wallet::pay_type (declared outside the translated source file; the source
only inspects `service_node`, `miner` and `stake`, everything else falls to the
default branch). -/
inductive PayType
  | payIn
  | payOut
  | stake
  | miner
  | service_node
  | governance
  | unspecified
deriving DecidableEq

/-- State enum of tools::wallet2::unconfirmed_transfer_details. -/
inductive TransferState
  | pending
  | pending_not_in_pool
  | failed
deriving DecidableEq

/-- cryptonote::subaddress_index. -/
structure SubaddressIndex where
  major : Nat
  minor : Nat
deriving DecidableEq

/-- tools::wallet2::payment_details — the fields the source reads
(`m_tx_hash` already rendered by tools::type_to_hex). -/
structure PaymentDetails where
  m_tx_hash : String
  m_amount : Nat
  m_block_height : Nat
  m_subaddr_index : SubaddressIndex
  m_timestamp : Nat
  m_unlock_time : Nat
  m_type : PayType
deriving DecidableEq

/-- tools::wallet2::pool_payment_details (the source only reads `m_pd`). -/
structure PoolPaymentDetails where
  m_pd : PaymentDetails
  m_double_spend_seen : Bool
deriving DecidableEq

/-- One entry of confirmed_transfer_details::m_dests: an amount plus the datum
that `d.address(nettype, payment_id)` resolves; address resolution itself is a
Ledger service (see `Wallet.resolveAddress`). -/
structure DestEntry where
  amount : Nat
  addrRef : Nat
deriving DecidableEq

/-- tools::wallet2::confirmed_transfer_details — the fields the source reads
(`m_payment_id` already rendered by tools::type_to_hex). -/
structure ConfirmedTransferDetails where
  m_amount_in : Nat
  m_amount_out : Nat
  m_change : Nat
  m_block_height : Nat
  m_payment_id : List Char
  m_subaddr_account : Nat
  m_subaddr_indices : List Nat
  m_timestamp : Nat
  m_pay_type : PayType
  m_dests : List DestEntry
deriving DecidableEq

/-- tools::wallet2::unconfirmed_transfer_details — the fields the source reads. -/
structure UnconfirmedTransferDetails where
  m_amount_in : Nat
  m_amount_out : Nat
  m_change : Nat
  m_payment_id : List Char
  m_state : TransferState
  m_subaddr_account : Nat
  m_subaddr_indices : List Nat
  m_timestamp : Nat
  m_pay_type : PayType
deriving DecidableEq

/-- TransactionInfoImpl, the normalized record. Modelled from the spec: the
default field values come from transaction_info.h, which is not among the
translated sources; per spec §3 `fee` defaults to 0, `pending`, `failed` and
`isStake` default to false, `rewardType` to Unspecified, `transfers` to empty,
and `blockHeight` to 0 when not yet mined. -/
structure TransactionInfoImpl where
  m_direction : Direction := Direction.directionIn
  m_pending : Bool := false
  m_failed : Bool := false
  m_amount : Nat := 0
  m_fee : Nat := 0
  m_blockheight : Nat := 0
  m_hash : String := ""
  m_paymentid : List Char := []
  m_timestamp : Nat := 0
  m_confirmations : Nat := 0
  m_unlock_time : Nat := 0
  m_subaddrIndex : List Nat := []
  m_subaddrAccount : Nat := 0
  m_label : String := ""
  m_reward_type : RewardType := RewardType.unspecified
  m_is_stake : Bool := false
  m_transfers : List (Nat × String) := []
deriving DecidableEq

/-- The wallet2 collaborator: the query results `refresh` consumes (each C++
getter out-param is modelled as the list it would fill) plus the service
functions the normalization calls. -/
structure Wallet where
  blockChainHeight : Nat
  in_payments : List (List Char × PaymentDetails)
  out_payments : List (String × ConfirmedTransferDetails)
  upayments_out : List (String × UnconfirmedTransferDetails)
  upayments : List (List Char × PoolPaymentDetails)
  get_subaddress_label : SubaddressIndex → String
  nettype : Nat
  resolveAddress : Nat → List Char → Nat → String

/-- Static helper `from_pay_type` of the source. -/
def from_pay_type (ptype : PayType) : RewardType :=
  match ptype with
  | PayType.service_node => RewardType.service_node
  | PayType.miner => RewardType.miner
  | _ => RewardType.unspecified

/-- Payment-id canonicalization, the two lines repeated in all four loops of
`refresh`: truncate to the first 16 characters iff
`payment_id.substr(16).find_first_not_of(0-char) == npos`, i.e. iff every
character at index ≥ 16 is the pad character. -/
def normalizePaymentId (payment_id : List Char) : List Char :=
  if (payment_id.drop 16).all (fun c => c == '0') then payment_id.take 16
  else payment_id

/-- Loop body of the first `refresh` loop (confirmed incoming payments,
source lines 124-148). -/
def normInPayment (w : Wallet) (wallet_height : Nat) (raw_pid : List Char)
    (pd : PaymentDetails) : TransactionInfoImpl :=
  let payment_id := normalizePaymentId raw_pid
  { m_paymentid := payment_id
    m_amount := pd.m_amount
    m_direction := Direction.directionIn
    m_hash := pd.m_tx_hash
    m_blockheight := pd.m_block_height
    m_subaddrIndex := [pd.m_subaddr_index.minor]
    m_subaddrAccount := pd.m_subaddr_index.major
    m_label := w.get_subaddress_label pd.m_subaddr_index
    m_timestamp := pd.m_timestamp
    m_confirmations :=
      if wallet_height > pd.m_block_height then wallet_height - pd.m_block_height else 0
    m_unlock_time := pd.m_unlock_time
    m_reward_type := from_pay_type pd.m_type
    m_is_stake := pd.m_type == PayType.stake }

/-- Loop body of the second `refresh` loop (confirmed outgoing transfers,
source lines 161-199). -/
def normOutPayment (w : Wallet) (wallet_height : Nat) (hash : String)
    (pd : ConfirmedTransferDetails) : TransactionInfoImpl :=
  let change := if pd.m_change = U64_SENTINEL then 0 else pd.m_change
  let fee := sub64 pd.m_amount_in pd.m_amount_out
  let payment_id := normalizePaymentId pd.m_payment_id
  { m_paymentid := payment_id
    m_amount := sub64 (sub64 pd.m_amount_in change) fee
    m_fee := fee
    m_direction := Direction.directionOut
    m_hash := hash
    m_blockheight := pd.m_block_height
    m_subaddrIndex := pd.m_subaddr_indices
    m_subaddrAccount := pd.m_subaddr_account
    m_label :=
      if pd.m_subaddr_indices.length == 1 then
        w.get_subaddress_label
          (SubaddressIndex.mk pd.m_subaddr_account (pd.m_subaddr_indices.headD 0))
      else ""
    m_timestamp := pd.m_timestamp
    m_confirmations :=
      if wallet_height > pd.m_block_height then wallet_height - pd.m_block_height else 0
    m_is_stake := pd.m_pay_type == PayType.stake
    m_transfers :=
      pd.m_dests.map
        (fun d => (d.amount, w.resolveAddress w.nettype pd.m_payment_id d.addrRef)) }

/-- Loop body of the third `refresh` loop (unconfirmed outgoing transfers,
source lines 204-235). Note: unlike the confirmed branch, `pd.m_change` is
used raw, with no `(uint64_t)-1` sentinel check. -/
def normUnconfirmedOut (w : Wallet) (hash : String)
    (pd : UnconfirmedTransferDetails) : TransactionInfoImpl :=
  let amount := pd.m_amount_in
  let fee := sub64 amount pd.m_amount_out
  let payment_id := normalizePaymentId pd.m_payment_id
  let is_failed := pd.m_state == TransferState.failed
  { m_paymentid := payment_id
    m_amount := sub64 (sub64 amount pd.m_change) fee
    m_fee := fee
    m_direction := Direction.directionOut
    m_failed := is_failed
    m_pending := true
    m_hash := hash
    m_subaddrIndex := pd.m_subaddr_indices
    m_subaddrAccount := pd.m_subaddr_account
    m_label :=
      if pd.m_subaddr_indices.length == 1 then
        w.get_subaddress_label
          (SubaddressIndex.mk pd.m_subaddr_account (pd.m_subaddr_indices.headD 0))
      else ""
    m_timestamp := pd.m_timestamp
    m_confirmations := 0
    m_is_stake := pd.m_pay_type == PayType.stake }

/-- Loop body of the fourth `refresh` loop (unconfirmed pool payments,
source lines 240-265). -/
def normPoolPayment (w : Wallet) (raw_pid : List Char)
    (ppd : PoolPaymentDetails) : TransactionInfoImpl :=
  let pd := ppd.m_pd
  let payment_id := normalizePaymentId raw_pid
  { m_paymentid := payment_id
    m_amount := pd.m_amount
    m_direction := Direction.directionIn
    m_hash := pd.m_tx_hash
    m_blockheight := pd.m_block_height
    m_pending := true
    m_subaddrIndex := [pd.m_subaddr_index.minor]
    m_subaddrAccount := pd.m_subaddr_index.major
    m_label := w.get_subaddress_label pd.m_subaddr_index
    m_timestamp := pd.m_timestamp
    m_confirmations := 0
    m_reward_type := from_pay_type pd.m_type
    m_is_stake := pd.m_type == PayType.stake }

/-- TransactionHistoryImpl::refresh, success path: deletes the previous
`m_history` (the parameter, discarded), then runs the four query loops in
order, each `push_back` appending one normalized record. Returns the final
`m_history`. -/
def refresh (w : Wallet) (m_history : List TransactionInfoImpl) :
    List TransactionInfoImpl :=
  let wallet_height := w.blockChainHeight
  let cleared : List TransactionInfoImpl := []
  let h1 := w.in_payments.foldl
    (fun hist i => hist ++ [normInPayment w wallet_height i.1 i.2]) cleared
  let h2 := w.out_payments.foldl
    (fun hist i => hist ++ [normOutPayment w wallet_height i.1 i.2]) h1
  let h3 := w.upayments_out.foldl
    (fun hist i => hist ++ [normUnconfirmedOut w i.1 i.2]) h2
  w.upayments.foldl (fun hist i => hist ++ [normPoolPayment w i.1 i.2]) h3

/-- TransactionHistoryImpl::count. -/
def count (m_history : List TransactionInfoImpl) : Int :=
  (m_history.length : Int)

/-- TransactionHistoryImpl::transaction(int): nullptr for a negative index,
otherwise cast to unsigned and bounds-checked against `m_history.size()`. -/
def transactionAt (m_history : List TransactionInfoImpl) (index : Int) :
    Option TransactionInfoImpl :=
  if index < 0 then none
  else if h : index.toNat < m_history.length then
    some (m_history.get ⟨index.toNat, h⟩)
  else none

/-- TransactionHistoryImpl::transaction(string_view): first element of
`m_history` whose hash equals the argument, nullptr when none matches. -/
def transactionByHash (m_history : List TransactionInfoImpl) (id : String) :
    Option TransactionInfoImpl :=
  m_history.find? (fun ti => ti.m_hash == id)

/-- TransactionHistoryImpl::getAll: a copy of `m_history`. -/
def getAll (m_history : List TransactionInfoImpl) : List TransactionInfoImpl :=
  m_history

/-- A Ledger whose queries may throw: the wallet data plus one flag per query;
a set flag means that wallet2 call raises instead of returning `w`'s list. -/
structure FallibleWallet where
  w : Wallet
  fail_in : Bool
  fail_out : Bool
  fail_uout : Bool
  fail_pool : Bool

/-- TransactionHistoryImpl::refresh under a Ledger query failure: the previous
`m_history` is deleted and cleared before the first query, and each loop
appends to the member list in place, so a query that throws propagates out of
the `void` function leaving `m_history` holding whatever was appended so far.
`Except.error s` means the exception escaped with `m_history = s`;
`Except.ok s` is the normal return. -/
def refreshFallible (fw : FallibleWallet) (m_history : List TransactionInfoImpl) :
    Except (List TransactionInfoImpl) (List TransactionInfoImpl) :=
  let w := fw.w
  let wallet_height := w.blockChainHeight
  let cleared : List TransactionInfoImpl := []
  if fw.fail_in then Except.error cleared
  else
    let h1 := w.in_payments.foldl
      (fun hist i => hist ++ [normInPayment w wallet_height i.1 i.2]) cleared
    if fw.fail_out then Except.error h1
    else
      let h2 := w.out_payments.foldl
        (fun hist i => hist ++ [normOutPayment w wallet_height i.1 i.2]) h1
      if fw.fail_uout then Except.error h2
      else
        let h3 := w.upayments_out.foldl
          (fun hist i => hist ++ [normUnconfirmedOut w i.1 i.2]) h2
        if fw.fail_pool then Except.error h3
        else Except.ok (w.upayments.foldl
          (fun hist i => hist ++ [normPoolPayment w i.1 i.2]) h3)

end TransactionHistory

/-! ### Helper lemmas -/

namespace TransactionHistory

lemma foldl_push {α β : Type} (f : α → β) (l : List α) (init : List β) :
    l.foldl (fun hist a => hist ++ [f a]) init = init ++ l.map f := by
  induction l generalizing init with
  | nil => simp
  | cons a l ih => simp [List.foldl_cons, ih]

lemma refresh_eq (w : Wallet) (prev : List TransactionInfoImpl) :
    refresh w prev =
      w.in_payments.map (fun i => normInPayment w w.blockChainHeight i.1 i.2)
      ++ w.out_payments.map (fun i => normOutPayment w w.blockChainHeight i.1 i.2)
      ++ w.upayments_out.map (fun i => normUnconfirmedOut w i.1 i.2)
      ++ w.upayments.map (fun i => normPoolPayment w i.1 i.2) := by
  simp [refresh, foldl_push, List.append_assoc]

lemma drop_all_zero_iff (pid : List Char) :
    ((pid.drop 16).all (fun c => c == '0') = true) ↔
      (∀ i (hi : i < pid.length), 16 ≤ i → pid.get ⟨i, hi⟩ = '0') := by
  rw [List.all_eq_true]
  constructor
  · intro h i hi h16
    have hj : i - 16 < (pid.drop 16).length := by
      simp only [List.length_drop]; omega
    have hmem : (pid.drop 16).get ⟨i - 16, hj⟩ ∈ pid.drop 16 := List.get_mem _ _ _
    have := h _ hmem
    rw [List.get_eq_getElem, List.getElem_drop] at this
    have hidx : 16 + (i - 16) = i := by omega
    simp only [List.get_eq_getElem]
    simp only [hidx] at this
    exact eq_of_beq this
  · intro h c hc
    obtain ⟨j, hj, rfl⟩ := List.mem_iff_getElem.mp hc
    rw [List.getElem_drop]
    have hb : 16 + j < pid.length := by
      simp only [List.length_drop] at hj; omega
    have := h (16 + j) hb (by omega)
    simp only [List.get_eq_getElem] at this
    simp [this]

lemma find?_first {α : Type} (p : α → Bool) (l : List α) :
    ∀ i (hi : i < l.length), p (l.get ⟨i, hi⟩) = true →
      (∀ j (hj : j < l.length), j < i → p (l.get ⟨j, hj⟩) = false) →
      l.find? p = some (l.get ⟨i, hi⟩) := by
  induction l with
  | nil => intro i hi; exact absurd hi (by simp)
  | cons a l ih =>
    intro i hi hp hfirst
    cases i with
    | zero =>
      simp only [List.get_eq_getElem, List.getElem_cons_zero] at hp ⊢
      simp [List.find?_cons_of_pos, hp]
    | succ n =>
      have ha : p a = false := by
        have := hfirst 0 (by simp) (Nat.succ_pos n)
        simpa using this
      rw [List.find?_cons_of_neg _ (by simp [ha])]
      have hn : n < l.length := by simpa using hi
      have hstep : l.find? p = some (l.get ⟨n, hn⟩) := by
        refine ih n hn ?_ ?_
        · simpa using hp
        · intro j hj hlt
          have := hfirst (j + 1) (by simpa using Nat.succ_lt_succ hj)
            (Nat.succ_lt_succ hlt)
          simpa using this
      simpa using hstep

end TransactionHistory

/-! ### Concrete fixtures used by counterexamples and witnesses -/

namespace TransactionHistory

/-- Raw payment id fixture: 16 significant hex characters, all-zero tail. -/
def pidEx1 : List Char := "a1b2c3d4e5f6a7b80000000000000000".toList

/-- Confirmed incoming payment fixture. -/
def pdEx1 : PaymentDetails :=
  { m_tx_hash := "txhash1"
    m_amount := 50
    m_block_height := 40
    m_subaddr_index := SubaddressIndex.mk 0 1
    m_timestamp := 7
    m_unlock_time := 0
    m_type := PayType.miner }

/-- Ledger fixture with a single confirmed incoming payment. -/
def wEx1 : Wallet :=
  { blockChainHeight := 100
    in_payments := [(pidEx1, pdEx1)]
    out_payments := []
    upayments_out := []
    upayments := []
    get_subaddress_label := fun _ => "lbl"
    nettype := 0
    resolveAddress := fun _ _ _ => "addr" }

/-- A record standing for the previously visible snapshot contents. -/
def tiPrev : TransactionInfoImpl := { m_hash := "prevhash" }

/-- Ledger whose first query (get_payments) throws. -/
def fwFailFirst : FallibleWallet :=
  { w := wEx1, fail_in := true, fail_out := false, fail_uout := false, fail_pool := false }

/-- Ledger whose second query (get_payments_out) throws. -/
def fwFailSecond : FallibleWallet :=
  { w := wEx1, fail_in := false, fail_out := true, fail_uout := false, fail_pool := false }

/-- Pending outgoing transfer whose change is the `(uint64_t)-1` sentinel. -/
def pduSentinel : UnconfirmedTransferDetails :=
  { m_amount_in := 110
    m_amount_out := 100
    m_change := U64_SENTINEL
    m_payment_id := []
    m_state := TransferState.pending
    m_subaddr_account := 0
    m_subaddr_indices := []
    m_timestamp := 0
    m_pay_type := PayType.payOut }

/-- Pending outgoing transfer with amount_out exceeding amount_in. -/
def pduEx10 : UnconfirmedTransferDetails :=
  { m_amount_in := 5
    m_amount_out := 10
    m_change := 0
    m_payment_id := []
    m_state := TransferState.pending
    m_subaddr_account := 0
    m_subaddr_indices := []
    m_timestamp := 0
    m_pay_type := PayType.payOut }

/-- Confirmed outgoing transfer with non-sentinel change exceeding amountOut,
so that change + fee exceeds amountIn. -/
def pdcEx10 : ConfirmedTransferDetails :=
  { m_amount_in := 110
    m_amount_out := 100
    m_change := 105
    m_block_height := 40
    m_payment_id := []
    m_subaddr_account := 0
    m_subaddr_indices := []
    m_timestamp := 0
    m_pay_type := PayType.payOut
    m_dests := [] }

/-- An all-default record. -/
def tiEx0 : TransactionInfoImpl := {}

/-- A record with a known hash. -/
def tiExH : TransactionInfoImpl := { m_hash := "deadbeef" }

end TransactionHistory

/-! ### Claim theorems -/

namespace TransactionHistory

/-- Claim C1 (code_bug evidence): when a Ledger query during `refresh` fails
partway through, the previously visible snapshot is NOT left intact. The
pre-call snapshot holds one record (`count == 1`); a failure of the first query
leaves `m_history` empty, and a failure of the second query leaves a partial
single-record set different from the pre-call snapshot — `refresh` has already
deleted and cleared the old records before the first query. -/
theorem rebuild_failure_not_atomic :
    count [tiPrev] = 1 ∧
    count ([] : List TransactionInfoImpl) = 0 ∧
    refreshFallible fwFailFirst [tiPrev] = Except.error [] ∧
    refreshFallible fwFailSecond [tiPrev] =
      Except.error [normInPayment wEx1 wEx1.blockChainHeight pidEx1 pdEx1] ∧
    getAll [normInPayment wEx1 wEx1.blockChainHeight pidEx1 pdEx1] ≠ getAll [tiPrev] ∧
    getAll ([] : List TransactionInfoImpl) ≠ getAll [tiPrev] := by
  refine ⟨rfl, rfl, rfl, rfl, by decide, by decide⟩

/-- Claim C2 counterexample: for a pending outgoing record whose raw change is
the `(uint64_t)-1` sentinel (amountIn 110, amountOut 100), the code stores
amount 101 — it subtracts the raw change with wraparound — whereas the claimed
confirmed-branch derivation (sentinel mapped to change 0) yields 100. -/
theorem pending_change_counterexample :
    (normUnconfirmedOut wEx1 "cafe" pduSentinel).m_amount = 101 ∧
    sub64 (sub64 pduSentinel.m_amount_in
        (if pduSentinel.m_change = U64_SENTINEL then 0 else pduSentinel.m_change))
      (sub64 pduSentinel.m_amount_in pduSentinel.m_amount_out) = 100 ∧
    (101 : Nat) ≠ 100 := by
  refine ⟨by decide, by decide, by decide⟩

/-- Claim C2 as amended: for every pending (unconfirmed) outgoing record,
fee = amountIn − amountOut and amount = amountIn − change − fee in wrapping
unsigned 64-bit arithmetic, but with the RAW change value — no UNKNOWN-sentinel
check is applied in this branch; confirmations are forced to 0, pending is
true, and failed holds exactly when the source state is Failed. -/
theorem pending_outgoing_normalization (w : Wallet) (hash : String)
    (pd : UnconfirmedTransferDetails) :
    (normUnconfirmedOut w hash pd).m_fee = sub64 pd.m_amount_in pd.m_amount_out ∧
    (normUnconfirmedOut w hash pd).m_amount =
      sub64 (sub64 pd.m_amount_in pd.m_change) (sub64 pd.m_amount_in pd.m_amount_out) ∧
    (normUnconfirmedOut w hash pd).m_confirmations = 0 ∧
    (normUnconfirmedOut w hash pd).m_pending = true ∧
    ((normUnconfirmedOut w hash pd).m_failed = true ↔
      pd.m_state = TransferState.failed) := by
  refine ⟨rfl, rfl, rfl, rfl, ?_⟩
  show (pd.m_state == TransferState.failed) = true ↔ pd.m_state = TransferState.failed
  exact beq_iff_eq

/-- Claim C3: for every raw payment id of length at least 16, if every
character at index ≥ 16 is the pad character the normalized id is exactly the
first 16 characters, otherwise the full string is returned unchanged; the
normalization is total, and all four branches of `refresh` apply exactly this
function to the raw id. -/
theorem paymentid_normalization_spec (pid : List Char) (hlen : 16 ≤ pid.length) :
    ((∀ i (hi : i < pid.length), 16 ≤ i → pid.get ⟨i, hi⟩ = '0') →
      normalizePaymentId pid = pid.take 16) ∧
    ((∃ i, ∃ hi : i < pid.length, 16 ≤ i ∧ pid.get ⟨i, hi⟩ ≠ '0') →
      normalizePaymentId pid = pid) ∧
    (∀ w wallet_height pd,
      (normInPayment w wallet_height pid pd).m_paymentid = normalizePaymentId pid) ∧
    (∀ w wallet_height hash pd, pd.m_payment_id = pid →
      (normOutPayment w wallet_height hash pd).m_paymentid = normalizePaymentId pid) ∧
    (∀ w hash pd, pd.m_payment_id = pid →
      (normUnconfirmedOut w hash pd).m_paymentid = normalizePaymentId pid) ∧
    (∀ w ppd, (normPoolPayment w pid ppd).m_paymentid = normalizePaymentId pid) := by
  refine ⟨?_, ?_, fun _ _ _ => rfl, fun _ _ _ pd hpd => by subst hpd; rfl,
    fun _ _ pd hpd => by subst hpd; rfl, fun _ _ => rfl⟩
  · intro hall
    unfold normalizePaymentId
    rw [if_pos ((drop_all_zero_iff pid).mpr hall)]
  · rintro ⟨i, hi, h16, hne⟩
    unfold normalizePaymentId
    rw [if_neg]
    intro hcontra
    exact hne ((drop_all_zero_iff pid).mp hcontra i hi h16)

/-- Claim C3 witness: the spec's example shape, a 32-character id whose tail
past position 16 is all zeros, is truncated to its first 16 characters. -/
theorem paymentid_normalization_spec_witness :
    normalizePaymentId pidEx1 = pidEx1.take 16 :=
  (paymentid_normalization_spec pidEx1 (by decide)).1 (by decide)

/-- Claim C4: every record produced by `refresh` at wallet height
`w.blockChainHeight` that comes from a confirmed branch (those leave `pending`
false) has `confirmations = walletHeight > blockHeight ? walletHeight −
blockHeight : 0`, and every record from a pending branch (those set `pending`)
has `confirmations = 0`. -/
theorem rebuild_confirmations (w : Wallet) (prev : List TransactionInfoImpl)
    (ti : TransactionInfoImpl) (hmem : ti ∈ refresh w prev) :
    (ti.m_pending = false →
      ti.m_confirmations =
        if w.blockChainHeight > ti.m_blockheight
        then w.blockChainHeight - ti.m_blockheight else 0) ∧
    (ti.m_pending = true → ti.m_confirmations = 0) := by
  rw [refresh_eq] at hmem
  simp only [List.mem_append, List.mem_map] at hmem
  rcases hmem with ((⟨p, hp, rfl⟩ | ⟨p, hp, rfl⟩) | ⟨p, hp, rfl⟩) | ⟨p, hp, rfl⟩ <;>
    constructor <;> intro hpend <;>
    simp_all [normInPayment, normOutPayment, normUnconfirmedOut, normPoolPayment]

/-- Claim C4 witness: the single confirmed incoming record of the fixture
Ledger (block height 40, wallet height 100) satisfies both implications. -/
theorem rebuild_confirmations_witness :
    ((normInPayment wEx1 wEx1.blockChainHeight pidEx1 pdEx1).m_pending = false →
      (normInPayment wEx1 wEx1.blockChainHeight pidEx1 pdEx1).m_confirmations =
        if wEx1.blockChainHeight >
            (normInPayment wEx1 wEx1.blockChainHeight pidEx1 pdEx1).m_blockheight
        then wEx1.blockChainHeight -
            (normInPayment wEx1 wEx1.blockChainHeight pidEx1 pdEx1).m_blockheight
        else 0) ∧
    ((normInPayment wEx1 wEx1.blockChainHeight pidEx1 pdEx1).m_pending = true →
      (normInPayment wEx1 wEx1.blockChainHeight pidEx1 pdEx1).m_confirmations = 0) :=
  rebuild_confirmations wEx1 [] _ (by decide)

end TransactionHistory

namespace TransactionHistory

/-- Claim C5: after a successful `refresh`, `getAll` lists the normalized
confirmed-incoming records first, then confirmed-outgoing, then
pending-outgoing, then pool-incoming, each group in source order, and `count`
equals the total number of normalized records across the four sources. -/
theorem rebuild_count_and_order (w : Wallet) (prev : List TransactionInfoImpl) :
    getAll (refresh w prev) =
      w.in_payments.map (fun i => normInPayment w w.blockChainHeight i.1 i.2)
      ++ w.out_payments.map (fun i => normOutPayment w w.blockChainHeight i.1 i.2)
      ++ w.upayments_out.map (fun i => normUnconfirmedOut w i.1 i.2)
      ++ w.upayments.map (fun i => normPoolPayment w i.1 i.2) ∧
    count (refresh w prev) =
      ((w.in_payments.length + w.out_payments.length + w.upayments_out.length
        + w.upayments.length : Nat) : Int) := by
  refine ⟨refresh_eq w prev, ?_⟩
  simp only [count, refresh_eq, List.length_append, List.length_map]

/-- Claim C6: `transaction(int)` returns none exactly for indices that are
negative or not below `count`; for every in-range index it returns the record
at that position of `getAll`, and an out-of-range lookup is an ordinary
not-found result. -/
theorem recordAt_spec (m_history : List TransactionInfoImpl) (index : Int) :
    (transactionAt m_history index = none ↔
      index < 0 ∨ count m_history ≤ index) ∧
    (0 ≤ index → index < count m_history →
      ∃ h : index.toNat < (getAll m_history).length,
        transactionAt m_history index =
          some ((getAll m_history).get ⟨index.toNat, h⟩)) := by
  unfold transactionAt count getAll
  constructor
  · by_cases hneg : index < 0
    · rw [if_pos hneg]
      exact ⟨fun _ => Or.inl hneg, fun _ => rfl⟩
    · rw [if_neg hneg]
      by_cases hlt : index.toNat < m_history.length
      · rw [dif_pos hlt]
        constructor
        · intro h
          simp at h
        · intro h
          exfalso
          omega
      · rw [dif_neg hlt]
        exact ⟨fun _ => by omega, fun _ => rfl⟩
  · intro h0 hlt
    have hlen : index.toNat < m_history.length := by omega
    refine ⟨hlen, ?_⟩
    have hneg : ¬ index < 0 := by omega
    simp [hneg, hlen]

end TransactionHistory

namespace TransactionHistory

/-- Claim C6 witness: for the singleton snapshot and index 0, `transaction(0)`
returns the record at position 0 of `getAll`. -/
theorem recordAt_spec_witness :
    ∃ h : (0 : Int).toNat < (getAll [tiEx0]).length,
      transactionAt [tiEx0] 0 =
        some ((getAll [tiEx0]).get ⟨(0 : Int).toNat, h⟩) :=
  (recordAt_spec [tiEx0] 0).2 (by decide) (by decide)

/-- Claim C7: `transaction(string_view)` returns none when no record of the
snapshot carries the requested hash, and otherwise returns the first record in
append order whose hash equals the argument; a miss is an ordinary not-found
result. -/
theorem recordByHash_spec (m_history : List TransactionInfoImpl) (id : String) :
    ((∀ ti ∈ m_history, ti.m_hash ≠ id) → transactionByHash m_history id = none) ∧
    (∀ i (hi : i < m_history.length), (m_history.get ⟨i, hi⟩).m_hash = id →
      (∀ j (hj : j < m_history.length), j < i → (m_history.get ⟨j, hj⟩).m_hash ≠ id) →
      transactionByHash m_history id = some (m_history.get ⟨i, hi⟩)) := by
  constructor
  · intro hnone
    unfold transactionByHash
    rw [List.find?_eq_none]
    intro ti hti
    simpa using hnone ti hti
  · intro i hi hhash hfirst
    unfold transactionByHash
    refine find?_first _ _ i hi ?_ ?_
    · simpa using hhash
    · intro j hj hlt
      simpa using hfirst j hj hlt

/-- Claim C7 witness: in the singleton snapshot holding the record with hash
"deadbeef", a lookup of that hash returns it. -/
theorem recordByHash_spec_witness :
    transactionByHash [tiExH] "deadbeef" = some tiExH :=
  (recordByHash_spec [tiExH] "deadbeef").2 0 (by decide) (by decide)
    (fun j hj hlt => absurd hlt (Nat.not_lt_zero j))

/-- Claim C8: two consecutive `refresh` calls against an unchanged Ledger and
the same wallet height produce snapshots of equal length with equal multisets
of record hashes. -/
theorem rebuild_idempotent (w : Wallet) (prev : List TransactionInfoImpl) :
    (refresh w (refresh w prev)).length = (refresh w prev).length ∧
    Multiset.ofList ((refresh w (refresh w prev)).map (fun ti => ti.m_hash)) =
      Multiset.ofList ((refresh w prev).map (fun ti => ti.m_hash)) :=
  ⟨rfl, rfl⟩

/-- Claim C10: outgoing fee and amount derivations are wrapping unsigned
64-bit subtractions with no underflow guard, in both the confirmed and the
pending branch: when amountOut exceeds amountIn the stored fee is the huge
positive value 2^64 − (amountOut − amountIn), and when change + fee exceeds
amountIn (for the confirmed branch with a non-sentinel change, for the pending
branch with the raw change) the stored amount is the huge positive value
2^64 − (change − amountOut). -/
theorem outgoing_wraparound (w : Wallet) (wallet_height : Nat) (hash : String) :
    (∀ pd : ConfirmedTransferDetails,
      pd.m_amount_out < 2 ^ 64 → pd.m_amount_in < pd.m_amount_out →
      (normOutPayment w wallet_height hash pd).m_fee
          = 2 ^ 64 - (pd.m_amount_out - pd.m_amount_in) ∧
        0 < (normOutPayment w wallet_height hash pd).m_fee) ∧
    (∀ pd : ConfirmedTransferDetails,
      pd.m_change ≠ U64_SENTINEL →
      pd.m_amount_in < 2 ^ 64 → pd.m_amount_out ≤ pd.m_amount_in →
      pd.m_change ≤ pd.m_amount_in → pd.m_amount_out < pd.m_change →
      (normOutPayment w wallet_height hash pd).m_amount
          = 2 ^ 64 - (pd.m_change - pd.m_amount_out) ∧
        0 < (normOutPayment w wallet_height hash pd).m_amount) ∧
    (∀ pd : UnconfirmedTransferDetails,
      pd.m_amount_out < 2 ^ 64 → pd.m_amount_in < pd.m_amount_out →
      (normUnconfirmedOut w hash pd).m_fee
          = 2 ^ 64 - (pd.m_amount_out - pd.m_amount_in) ∧
        0 < (normUnconfirmedOut w hash pd).m_fee) ∧
    (∀ pd : UnconfirmedTransferDetails,
      pd.m_amount_in < 2 ^ 64 → pd.m_amount_out ≤ pd.m_amount_in →
      pd.m_change ≤ pd.m_amount_in → pd.m_amount_out < pd.m_change →
      (normUnconfirmedOut w hash pd).m_amount
          = 2 ^ 64 - (pd.m_change - pd.m_amount_out) ∧
        0 < (normUnconfirmedOut w hash pd).m_amount) := by
  refine ⟨fun pd h1 h2 => ?_, fun pd hs h1 h2 h3 h4 => ?_, fun pd h1 h2 => ?_,
    fun pd h1 h2 h3 h4 => ?_⟩
  · have hfee : (normOutPayment w wallet_height hash pd).m_fee
        = sub64 pd.m_amount_in pd.m_amount_out := rfl
    rw [hfee]
    unfold sub64
    constructor <;> omega
  · have hamt : (normOutPayment w wallet_height hash pd).m_amount
        = sub64 (sub64 pd.m_amount_in
            (if pd.m_change = U64_SENTINEL then 0 else pd.m_change))
            (sub64 pd.m_amount_in pd.m_amount_out) := rfl
    rw [hamt, if_neg hs]
    unfold sub64
    constructor <;> omega
  · have hfee : (normUnconfirmedOut w hash pd).m_fee
        = sub64 pd.m_amount_in pd.m_amount_out := rfl
    rw [hfee]
    unfold sub64
    constructor <;> omega
  · have hamt : (normUnconfirmedOut w hash pd).m_amount
        = sub64 (sub64 pd.m_amount_in pd.m_change)
            (sub64 pd.m_amount_in pd.m_amount_out) := rfl
    rw [hamt]
    unfold sub64
    constructor <;> omega

/-- Claim C10 witness: a pending transfer with amountIn 5 and amountOut 10
stores the wrapped fee 2^64 − 5, and a confirmed transfer with amountIn 110,
amountOut 100 and non-sentinel change 105 stores the wrapped amount 2^64 − 5,
both positive values. -/
theorem outgoing_wraparound_witness :
    ((normUnconfirmedOut wEx1 "h" pduEx10).m_fee
        = 2 ^ 64 - (pduEx10.m_amount_out - pduEx10.m_amount_in) ∧
      0 < (normUnconfirmedOut wEx1 "h" pduEx10).m_fee) ∧
    ((normOutPayment wEx1 0 "h" pdcEx10).m_amount
        = 2 ^ 64 - (pdcEx10.m_change - pdcEx10.m_amount_out) ∧
      0 < (normOutPayment wEx1 0 "h" pdcEx10).m_amount) :=
  ⟨(outgoing_wraparound wEx1 0 "h").2.2.1 pduEx10 (by decide) (by decide),
    (outgoing_wraparound wEx1 0 "h").2.1 pdcEx10 (by decide) (by decide)
      (by decide) (by decide) (by decide)⟩

end TransactionHistory
